import Mathlib

/-!
Shallow embedding of the keyring and secret-key-retrieval subsystem of
src/libkb/keyring.go (package libkb).

Modelling conventions:
  - Go maps become functions into Option; a map read on an absent key yields
    the zero value (nil pointer), modelled by flattening the nested Option.
  - Go pointer nullability becomes Option.
  - External collaborators (the openpgp codec, the filesystem, LoadMe, the
    computed key family, the synced-secret-key provider) are parameters:
    oracle functions supplied to each operation.
  - Statement-level mutation is explicit state passing: each operation that
    mutates returns the updated state next to its Go return values.
  - The mutex in Keyrings serialises every LoadSKBKeyring call; the sequential
    state machine below is exactly the serialised behaviour it enforces.
-/

namespace Libkb

/-- Opaque locked secret key handle (Go: *SKB). -/
abbrev SKB := Nat

/-- Key identifier for device keys (Go: KID). -/
abbrev KID := String

/-- Full PGP fingerprint (Go: PgpFingerprint); opaque byte array modelled as a string. -/
abbrev PgpFingerprint := String

/-- Errors surfaced by the keyring subsystem (Go error values). -/
inductive KeyError where
  | noUsername     -- NoUsernameError{}
  | noSecretKey    -- NoSecretKeyError{}
  | skbIo          -- an I/O error from SKBKeyringFile.LoadAndIndex other than not-exist
  | loadMeFailed   -- error from LoadMe
  | syncedFetch    -- error from GetSyncedSecretKey
  deriving DecidableEq, Repr

/-- Computed key family of a user (external collaborator, Go: *ComputedKeyFamily).
GetActiveSibkeyKidForCurrentDevice returns (kid, err); the caller checks err
first, then whether kid is nil, so the observable outcomes are exactly
error / some kid / none. -/
structure ComputedKeyFamily where
  activeSibkeyKidForCurrentDevice : Except Unit (Option KID)

/-- Modelled from the spec: the per-user secret keyring file (Go: SKBKeyringFile,
whose definition is outside the excerpted sources; only its construction,
LoadAndIndex, LookupByKid and SearchWithComputedKeyFamily call sites appear).
It carries the filename, the loaded entries, and its two lookup capabilities. -/
structure SKBKeyringFile where
  filename : String
  entries : List SKB
  lookupByKid : KID → Option SKB
  searchWithComputedKeyFamily : ComputedKeyFamily → Option SKB

/-- Modelled from the spec: NewSKBKeyringFile constructs an empty, not yet
loaded per-user keyring file at the given path. -/
def NewSKBKeyringFile (path : String) : SKBKeyringFile :=
  { filename := path
    entries := []
    lookupByKid := fun _ => none
    searchWithComputedKeyFamily := fun _ => none }

/-- Payload a successful SKBKeyringFile.LoadAndIndex would install: the entries
on disk together with the lookup capabilities built from them (external). -/
structure SkbFileData where
  entries : List SKB
  lookupByKid : KID → Option SKB
  searchWithComputedKeyFamily : ComputedKeyFamily → Option SKB

/-- Outcome of SKBKeyringFile.LoadAndIndex for a given path (filesystem oracle):
success with data, file-does-not-exist (os.IsNotExist), or any other error. -/
inductive SkbFsResult where
  | ok (d : SkbFileData)
  | notExist
  | ioErr

/-- The skbMap field of Keyrings: username → stored pointer. The outer Option
is map membership, the inner Option is pointer nullability of the stored
*SKBKeyringFile (a Go map can in principle hold a nil pointer). -/
abbrev SkbMap := String → Option (Option SKBKeyringFile)

/-- The initial skbMap installed by NewKeyrings: an empty map. -/
def emptySkbMap : SkbMap := fun _ => none

/-- Observable cache-and-I/O events of one LoadSKBKeyring call, used to state
which resources the call touches. -/
inductive CacheEvent where
  | mapRead (un : String)
  | mapWrite (un : String)
  | fileLoad (path : String)
  deriving DecidableEq, Repr

/-- Replacement of every non-overlapping occurrence of the token %u, scanning
left to right (the semantics of strings.Replace(tmp, "%u", un, -1)). -/
def substUser (un : String) : List Char → List Char
  | [] => []
  | '%' :: 'u' :: rest => un.data ++ substUser un rest
  | c :: rest => c :: substUser un rest

/-- Whether the token %u occurs in the string (strings.Index(tmp, "%u") >= 0). -/
def hasUserToken : List Char → Bool
  | [] => false
  | '%' :: 'u' :: _ => true
  | _ :: rest => hasUserToken rest

/-- SKBFilenameForUser (keyring.go:125-133): substitute the username for the
%u token of the configured template; if the token is absent the template is
used verbatim. -/
def SKBFilenameForUser (tmpl un : String) : String :=
  if hasUserToken tmpl.data then String.mk (substUser un tmpl.data) else tmpl

/-- Result of one Keyrings.LoadSKBKeyring call: the returned file pointer, the
returned error, the skbMap after the call, and the trace of cache/I/O events. -/
structure SkbLoadOut where
  file : Option SKBKeyringFile
  err : Option KeyError
  map : SkbMap
  trace : List CacheEvent

/-- Keyrings.LoadSKBKeyring (keyring.go:135-150). Under the mutex: read
skbMap[un]; if the stored pointer is non-nil return it; otherwise an empty
username fails with NoUsernameError; otherwise build the per-user file, run
LoadAndIndex, and cache the file when the load succeeded or failed only
because the file does not exist; any other error is returned uncached. -/
def Keyrings.LoadSKBKeyring (skbFs : String → SkbFsResult) (tmpl : String)
    (m : SkbMap) (un : String) : SkbLoadOut :=
  match (m un).join with
  | some f => { file := some f, err := none, map := m, trace := [.mapRead un] }
  | none =>
    if un.length = 0 then
      { file := none, err := some .noUsername, map := m, trace := [.mapRead un] }
    else
      match skbFs (SKBFilenameForUser tmpl un) with
      | .ok d =>
        -- LoadAndIndex succeeded: the file now carries the loaded data.
        { file := some { filename := SKBFilenameForUser tmpl un
                         entries := d.entries
                         lookupByKid := d.lookupByKid
                         searchWithComputedKeyFamily := d.searchWithComputedKeyFamily }
          err := none
          map := Function.update m un
            (some (some { filename := SKBFilenameForUser tmpl un
                          entries := d.entries
                          lookupByKid := d.lookupByKid
                          searchWithComputedKeyFamily := d.searchWithComputedKeyFamily }))
          trace := [.mapRead un, .fileLoad (SKBFilenameForUser tmpl un), .mapWrite un] }
      | .notExist =>
        -- os.IsNotExist: err is reset to nil and the still-empty file is cached.
        { file := some (NewSKBKeyringFile (SKBFilenameForUser tmpl un))
          err := none
          map := Function.update m un (some (some (NewSKBKeyringFile (SKBFilenameForUser tmpl un))))
          trace := [.mapRead un, .fileLoad (SKBFilenameForUser tmpl un), .mapWrite un] }
      | .ioErr =>
        -- Hard error: returned to the caller, nothing cached.
        { file := some (NewSKBKeyringFile (SKBFilenameForUser tmpl un))
          err := some .skbIo
          map := m
          trace := [.mapRead un, .fileLoad (SKBFilenameForUser tmpl un)] }

/-- States of the skbMap reachable from the empty map of NewKeyrings through
any sequence of LoadSKBKeyring calls (with arbitrary filesystem outcomes,
templates and usernames between calls). -/
inductive ReachableSkbMap : SkbMap → Prop where
  | init : ReachableSkbMap emptySkbMap
  | step (skbFs : String → SkbFsResult) (tmpl un : String) (m : SkbMap) :
      ReachableSkbMap m →
      ReachableSkbMap (Keyrings.LoadSKBKeyring skbFs tmpl m un).map

theorem reachableSkbMap_inv {m : SkbMap} (h : ReachableSkbMap m) :
    m "" = none ∧ ∀ un, m un ≠ some none := by
  induction h with
  | init => exact ⟨rfl, fun _ => Option.noConfusion⟩
  | step skbFs tmpl un m hm ih =>
    obtain ⟨ih0, ihn⟩ := ih
    unfold Keyrings.LoadSKBKeyring
    cases hj : (m un).join with
    | some f => exact ⟨ih0, ihn⟩
    | none =>
      by_cases hun : un.length = 0
      · simp only [hj, hun, if_true]
        exact ⟨ih0, ihn⟩
      · have hne : un ≠ "" := by
          intro hcon; exact hun (by simp [hcon])
        cases hfs : skbFs (SKBFilenameForUser tmpl un) with
        | ok d =>
          simp only [hj, hun, if_false, hfs]
          refine ⟨?_, ?_⟩
          · rw [Function.update_noteq (fun hcon => hne hcon.symm)]
            exact ih0
          · intro v
            by_cases hv : v = un
            · subst hv; rw [Function.update_same]
              intro hcon
              exact Option.noConfusion (Option.some.inj hcon)
            · rw [Function.update_noteq hv]; exact ihn v
        | notExist =>
          simp only [hj, hun, if_false, hfs]
          refine ⟨?_, ?_⟩
          · rw [Function.update_noteq (fun hcon => hne hcon.symm)]
            exact ih0
          · intro v
            by_cases hv : v = un
            · subst hv; rw [Function.update_same]
              intro hcon
              exact Option.noConfusion (Option.some.inj hcon)
            · rw [Function.update_noteq hv]; exact ihn v
        | ioErr =>
          simp only [hj, hun, if_false, hfs]
          exact ⟨ih0, ihn⟩


/-- Public key material of a primary key or subkey (external openpgp packet):
only the identifier string and the fingerprint matter to the index. -/
structure PublicKeyPacket where
  keyIdString : String
  fingerprint : PgpFingerprint
  deriving DecidableEq, Repr

/-- A subkey of an entity (Go: openpgp.Subkey); its PublicKey pointer may be nil. -/
structure Subkey where
  publicKey : Option PublicKeyPacket
  deriving DecidableEq, Repr

/-- A parsed key-material record (Go: *openpgp.Entity): primary key, subkeys,
and optional private key material (opaque). -/
structure Entity where
  primaryKey : Option PublicKeyPacket
  subkeys : List Subkey
  privateKey : Option Nat
  deriving DecidableEq, Repr

/-- One on-disk keyring (Go: KeyringFile): path, visibility, loaded entities,
and the two indexes built by Index. -/
structure KeyringFile where
  filename : String
  Entities : List Entity
  isPublic : Bool
  indexId : String → Option Entity
  indexFingerprint : PgpFingerprint → Option Entity

/-- The identifier/fingerprint pairs Index registers for one entity, in
program order: the primary key first (when non-nil), then each subkey whose
public material is non-nil. -/
def Entity.indexedKeys (e : Entity) : List (String × PgpFingerprint) :=
  (match e.primaryKey with
   | some pk => [(pk.keyIdString, pk.fingerprint)]
   | none => []) ++
  e.subkeys.filterMap (fun sk => sk.publicKey.map (fun pk => (pk.keyIdString, pk.fingerprint)))

/-- Generic index builder: for each entity in order, assign every extracted key
to that entity; a later assignment overwrites an earlier one, exactly the Go
map-assignment semantics of KeyringFile.Index. -/
def buildIndex {κ : Type} [DecidableEq κ] (keysOf : Entity → List κ)
    (l : List Entity) (m0 : κ → Option Entity) : κ → Option Entity :=
  l.foldl (fun m e => (keysOf e).foldl (fun m2 k => Function.update m2 k (some e)) m) m0

/-- KeyringFile.Index (keyring.go:162-189): rebuild indexId and
indexFingerprint from the entities. The Go loop fills both maps in one pass;
the writes to the two maps are independent, so they are built here as the two
projections of the same per-entity key list. -/
def KeyringFile.Index (k : KeyringFile) : KeyringFile :=
  { k with
    indexId := buildIndex (fun e => e.indexedKeys.map Prod.fst) k.Entities (fun _ => none)
    indexFingerprint := buildIndex (fun e => e.indexedKeys.map Prod.snd) k.Entities (fun _ => none) }

/-- A collection of keyring files (Go: Keyrings; the skbMap field is the
separately threaded SkbMap state above). -/
structure Keyrings where
  Public : List KeyringFile
  Secret : List KeyringFile

/-- Keyrings.FindKey (keyring.go:85-100): walk the selected file list; return
the first indexed entity passing the secret-material check; an entity present
but lacking private material under secret=true is skipped, not returned. -/
def findKeyInFiles (fp : PgpFingerprint) (secret : Bool) : List KeyringFile → Option Entity
  | [] => none
  | file :: rest =>
    match file.indexFingerprint fp with
    | some key =>
      if !secret || key.privateKey.isSome then some key
      else findKeyInFiles fp secret rest
    | none => findKeyInFiles fp secret rest

def Keyrings.FindKey (k : Keyrings) (fp : PgpFingerprint) (secret : Bool) : Option Entity :=
  findKeyInFiles fp secret (if secret then k.Secret else k.Public)

/-- An openpgp.Key slice element (external); its zero value has every pointer
field nil, which is what make([]openpgp.Key, 10) fills the slice with. -/
structure OKey where
  entity : Option Entity
  publicKey : Option PublicKeyPacket
  privateKey : Option Nat
  deriving DecidableEq, Repr

def zeroOKey : OKey := { entity := none, publicKey := none, privateKey := none }

/-- Keyrings.KeysById (keyring.go:53-62). elKeysById is the external
openpgp EntityList.KeysById. Note the Go code starts from
make([]openpgp.Key, 10): a slice already holding ten zero-valued keys. -/
def Keyrings.KeysById (elKeysById : List Entity → Nat → List OKey)
    (k : Keyrings) (id : Nat) : List OKey :=
  let out := List.replicate 10 zeroOKey
  let out := k.Public.foldl (fun acc ring => acc ++ elKeysById ring.Entities id) out
  k.Secret.foldl (fun acc ring => acc ++ elKeysById ring.Entities id) out

/-- Keyrings.KeysByIdUsage (keyring.go:64-73), same shape with a usage byte. -/
def Keyrings.KeysByIdUsage (elKeysByIdUsage : List Entity → Nat → Nat → List OKey)
    (k : Keyrings) (id usage : Nat) : List OKey :=
  let out := List.replicate 10 zeroOKey
  let out := k.Public.foldl (fun acc ring => acc ++ elKeysByIdUsage ring.Entities id usage) out
  k.Secret.foldl (fun acc ring => acc ++ elKeysByIdUsage ring.Entities id usage) out

/-- Keyrings.DecryptionKeys (keyring.go:75-81): iterates the secret files only. -/
def Keyrings.DecryptionKeys (elDecryptionKeys : List Entity → List OKey)
    (k : Keyrings) : List OKey :=
  let out := List.replicate 10 zeroOKey
  k.Secret.foldl (fun acc ring => acc ++ elDecryptionKeys ring.Entities) out

/-- Errors of KeyringFile.Load: the file exists but cannot be opened, or its
contents cannot be parsed by openpgp.ReadKeyRing. -/
inductive LoadErr where
  | io
  | parse
  deriving DecidableEq, Repr

/-- Filesystem-plus-codec oracle for one PGP keyring path: the os.Open and
openpgp.ReadKeyRing outcomes the Load body distinguishes. -/
inductive PgpFsResult where
  | notExist
  | openErr
  | parseErr
  | parsed (es : List Entity)

/-- KeyringFile.Load (keyring.go:191-210): a missing file is success with the
entities untouched; an open error is returned; otherwise ReadKeyRing either
replaces the entities or fails (the external ReadKeyRing returns a nil list
together with its error). -/
def KeyringFile.Load (fs : String → PgpFsResult) (k : KeyringFile) :
    Option LoadErr × KeyringFile :=
  match fs k.filename with
  | .notExist => (none, k)
  | .openErr => (some .io, k)
  | .parseErr => (some .parse, { k with Entities := [] })
  | .parsed es => (none, { k with Entities := es })

/-- KeyringFile.LoadAndIndex (keyring.go:152-160): Load, then Index on success. -/
def KeyringFile.LoadAndIndex (fs : String → PgpFsResult) (k : KeyringFile) :
    Option LoadErr × KeyringFile :=
  match k.Load fs with
  | (some e, k2) => (some e, k2)
  | (none, k2) => (none, k2.Index)

/-- Keyrings.LoadKeyrings (keyring.go:116-123): LoadAndIndex each file in
order; the first failure is returned at once, leaving the rest untouched. -/
def LoadKeyringList (fs : String → PgpFsResult) : List KeyringFile →
    Option LoadErr × List KeyringFile
  | [] => (none, [])
  | k :: rest =>
    match k.LoadAndIndex fs with
    | (some e, k2) => (some e, k2 :: rest)
    | (none, k2) =>
      match LoadKeyringList fs rest with
      | (err, rest2) => (err, k2 :: rest2)

/-- Keyrings.Load (keyring.go:104-114): load the public files; only when that
returned no error, load the secret files, discarding their error. -/
def Keyrings.Load (fs : String → PgpFsResult) (k : Keyrings) :
    Option LoadErr × Keyrings :=
  match LoadKeyringList fs k.Public with
  | (some e, pub2) => (some e, { k with Public := pub2 })
  | (none, pub2) =>
    match LoadKeyringList fs k.Secret with
    | (_, sec2) => (none, { Public := pub2, Secret := sec2 })

/-- A user (Go: *User) as the resolver observes it: the name, the computed key
family (GetComputedKeyFamily may return nil), and the outcome of
GetSyncedSecretKey (error / some key / none). -/
structure User where
  name : String
  computedKeyFamily : Option ComputedKeyFamily
  syncedSecretKey : Except Unit (Option SKB)

/-- SecretKeyArg (keyring.go:318-329); Ui is an external prompt collaborator
and is irrelevant below GetSecretKeyLocked, so it is not modelled. -/
structure SecretKeyArg where
  All : Bool
  DeviceKey : Bool
  SyncedPGPKey : Bool
  SearchKey : Bool
  Reason : String
  Me : Option User

def SecretKeyArg.UseDeviceKey (s : SecretKeyArg) : Bool := s.All || s.DeviceKey

def SecretKeyArg.SearchForKey (s : SecretKeyArg) : Bool := s.All || s.SearchKey

def SecretKeyArg.UseSyncedPGPKey (s : SecretKeyArg) : Bool := s.All || s.SyncedPGPKey

/-- Environment of the resolver: the LoadMe collaborator and the per-user
secret-keyring filesystem oracle plus filename template. -/
structure ResolverCtx where
  loadMe : Except Unit User
  skbFs : String → SkbFsResult
  tmpl : String

/-- Keyrings.GetLockedLocalSecretKey (keyring.go:270-316): load the subject
per-user keyring through the cache; bail out (nil) on error or nil keyring or
nil computed key family; under UseDeviceKey, resolve the current-device sibkey
KID and look it up; if still nothing and SearchForKey, search the keyring with
the computed key family. Returns the found key and the updated cache map. -/
def Keyrings.GetLockedLocalSecretKey (ctx : ResolverCtx) (m : SkbMap)
    (ska : SecretKeyArg) : Option SKB × SkbMap :=
  match ska.Me with
  | none => (none, m)   -- Go dereferences ska.Me; callers always bind Me first
  | some me =>
    let out := Keyrings.LoadSKBKeyring ctx.skbFs ctx.tmpl m me.name
    match out.err, out.file with
    | some _, _ => (none, out.map)
    | none, none => (none, out.map)
    | none, some keyring =>
      match me.computedKeyFamily with
      | none => (none, out.map)
      | some ckf =>
        let fromDevice : Option SKB :=
          if !ska.UseDeviceKey then none
          else
            match ckf.activeSibkeyKidForCurrentDevice with
            | .error _ => none
            | .ok none => none
            | .ok (some kid) => keyring.lookupByKid kid
        match fromDevice with
        | some r => (some r, out.map)
        | none =>
          if ska.SearchForKey then (keyring.searchWithComputedKeyFamily ckf, out.map)
          else (none, out.map)

/-- Result of Keyrings.GetSecretKeyLocked: the Go return triple (ret, which,
err) plus the updated cache map. -/
structure GslOut where
  ret : Option SKB
  which : String
  err : Option KeyError
  map : SkbMap

/-- Keyrings.GetSecretKeyLocked (keyring.go:231-265): bind Me via LoadMe when
absent (failure is fatal); a non-nil GetLockedLocalSecretKey result returns at
once (the named return which keeps its zero value ""); otherwise consult the
synced PGP key when requested (fetch errors are fatal; a found key sets which);
a still-nil result is NoSecretKeyError. -/
def Keyrings.GetSecretKeyLocked (ctx : ResolverCtx) (m : SkbMap)
    (ska : SecretKeyArg) : GslOut :=
  match (match ska.Me with
         | none =>
           match ctx.loadMe with
           | .error _ => none
           | .ok me => some { ska with Me := some me }
         | some _ => some ska) with
  | none => { ret := none, which := "", err := some .loadMeFailed, map := m }
  | some ska2 =>
    match ska2.Me with
    | none => { ret := none, which := "", err := some .loadMeFailed, map := m } -- unreachable
    | some me =>
      match Keyrings.GetLockedLocalSecretKey ctx m ska2 with
      | (some ret, m2) => { ret := some ret, which := "", err := none, map := m2 }
      | (none, m2) =>
        if !ska2.UseSyncedPGPKey then
          { ret := none, which := "", err := some .noSecretKey, map := m2 }
        else
          match me.syncedSecretKey with
          | .error _ => { ret := none, which := "", err := some .syncedFetch, map := m2 }
          | .ok none => { ret := none, which := "", err := some .noSecretKey, map := m2 }
          | .ok (some s) =>
            { ret := some s, which := "your Keybase.io passphrase", err := none, map := m2 }

/-! Concrete fixtures used by witnesses and counterexamples. -/

/-- A fresh, not yet loaded keyring file, as MakeKeyrings constructs it. -/
def freshKeyringFile (nm : String) (pub : Bool) : KeyringFile :=
  { filename := nm, Entities := [], isPublic := pub
    indexId := fun _ => none, indexFingerprint := fun _ => none }

/-- A filesystem on which the path bad fails to open and every other path is
missing. -/
def fsW : String → PgpFsResult := fun p => if p = "bad" then .openErr else .notExist

def keyringsPubBad : Keyrings :=
  { Public := [freshKeyringFile "bad" true], Secret := [freshKeyringFile "s" false] }

def keyringsSecBad : Keyrings :=
  { Public := [freshKeyringFile "p" true], Secret := [freshKeyringFile "bad" false] }

/-- C9. For every KeyringFile whose path does not exist on disk, Load returns
nil error and the entity list stays empty (entities are untouched, hence empty
for a freshly constructed file). -/
theorem load_missing_file_is_success (fs : String → PgpFsResult) (k : KeyringFile)
    (h1 : fs k.filename = .notExist) (h2 : k.Entities = []) :
    k.Load fs = (none, k) ∧ (k.Load fs).2.Entities = [] := by
  unfold KeyringFile.Load
  rw [h1]
  exact ⟨rfl, h2⟩

theorem load_missing_file_is_success_witness :
    KeyringFile.Load fsW (freshKeyringFile "nope" true) = (none, freshKeyringFile "nope" true) ∧
    (KeyringFile.Load fsW (freshKeyringFile "nope" true)).2.Entities = [] :=
  load_missing_file_is_success fsW (freshKeyringFile "nope" true) rfl rfl

/-- C7. During Keyrings.Load, a public-file failure is returned and aborts
loading (the secret list is left untouched); when the public files load
cleanly, Load returns nil no matter what loading the secret files returns. -/
theorem load_public_error_fatal_secret_swallowed (fs : String → PgpFsResult) (k : Keyrings) :
    (∀ e pub2, LoadKeyringList fs k.Public = (some e, pub2) →
      Keyrings.Load fs k = (some e, { k with Public := pub2 })) ∧
    ((LoadKeyringList fs k.Public).1 = none → (Keyrings.Load fs k).1 = none) := by
  constructor
  · intro e pub2 h
    unfold Keyrings.Load
    rw [h]
  · intro h
    unfold Keyrings.Load
    rcases hp : LoadKeyringList fs k.Public with ⟨err, pub2⟩
    rw [hp] at h
    simp only at h
    subst h
    rcases LoadKeyringList fs k.Secret with ⟨e2, sec2⟩
    rfl

theorem load_public_error_fatal_secret_swallowed_witness :
    ((Keyrings.Load fsW keyringsPubBad).1 = some .io ∧
     (Keyrings.Load fsW keyringsPubBad).2.Secret = keyringsPubBad.Secret) ∧
    ((LoadKeyringList fsW keyringsSecBad.Secret).1 = some .io ∧
     (Keyrings.Load fsW keyringsSecBad).1 = none) := by
  have hA := (load_public_error_fatal_secret_swallowed fsW keyringsPubBad).1
    .io [freshKeyringFile "bad" true] rfl
  have hB := (load_public_error_fatal_secret_swallowed fsW keyringsSecBad).2 rfl
  exact ⟨⟨by rw [hA], by rw [hA]⟩, ⟨rfl, hB⟩⟩

/-- Walking the file list in FindKey with secret=true only ever returns an
entity that passed the private-material test. -/
theorem findKeyInFiles_secret_private (fp : PgpFingerprint) (l : List KeyringFile)
    (e : Entity) (h : findKeyInFiles fp true l = some e) : e.privateKey.isSome = true := by
  induction l with
  | nil => simp [findKeyInFiles] at h
  | cons f rest ih =>
    unfold findKeyInFiles at h
    cases hf : f.indexFingerprint fp with
    | none =>
      rw [hf] at h
      exact ih h
    | some key =>
      rw [hf] at h
      by_cases hp : key.privateKey.isSome = true
      · simp only [Bool.not_true, Bool.false_or, hp, if_true] at h
        cases h
        exact hp
      · simp only [Bool.not_true, Bool.false_or, hp, if_false] at h
        exact ih h

/-- C4. FindKey(fp, secret=true) never returns an entity whose private key
material is absent, even when that entity is present in a secret file. -/
theorem findKey_secret_has_private (ks : Keyrings) (fp : PgpFingerprint) (e : Entity)
    (h : ks.FindKey fp true = some e) : e.privateKey.isSome = true := by
  unfold Keyrings.FindKey at h
  simp only [if_true] at h
  exact findKeyInFiles_secret_private fp ks.Secret e h

/-- An entity that carries private material, and a secret file that also has a
private-material-free entity indexed first, to exercise the skip. -/
def entityNoPriv : Entity :=
  { primaryKey := some { keyIdString := "A", fingerprint := "FA" }
    subkeys := [], privateKey := none }

def entityWithPriv : Entity :=
  { primaryKey := some { keyIdString := "B", fingerprint := "FB" }
    subkeys := [], privateKey := some 5 }

def secretFileNoPriv : KeyringFile :=
  { filename := "s1", Entities := [entityNoPriv], isPublic := false
    indexId := fun _ => none
    indexFingerprint := fun fp => if fp = "FB" then some entityNoPriv else none }

def secretFileWithPriv : KeyringFile :=
  { filename := "s2", Entities := [entityWithPriv], isPublic := false
    indexId := fun _ => none
    indexFingerprint := fun fp => if fp = "FB" then some entityWithPriv else none }

def keyringsC4 : Keyrings := { Public := [], Secret := [secretFileNoPriv, secretFileWithPriv] }

theorem findKey_secret_has_private_witness :
    keyringsC4.FindKey "FB" true = some entityWithPriv ∧
    entityWithPriv.privateKey.isSome = true :=
  ⟨rfl, findKey_secret_has_private keyringsC4 "FB" entityWithPriv rfl⟩

/-- Folding list-append over a list, starting from a, yields a followed by the
concatenation of the per-element results. -/
theorem foldl_append_flatten {α β : Type} (g : α → List β) (l : List α) (a : List β) :
    l.foldl (fun acc x => acc ++ g x) a = a ++ (l.map g).flatten := by
  induction l generalizing a with
  | nil => simp
  | cons x xs ih =>
    simp only [List.foldl_cons, List.map_cons, List.flatten_cons]
    rw [ih (a ++ g x), List.append_assoc]

/-- What Keyrings.KeysById actually returns: ten zero-valued keys, then the
per-file results over the public files, then over the secret files. -/
theorem keysById_shape (f : List Entity → Nat → List OKey) (k : Keyrings) (id : Nat) :
    Keyrings.KeysById f k id =
      List.replicate 10 zeroOKey ++
        ((k.Public.map (fun r => f r.Entities id)).flatten ++
         (k.Secret.map (fun r => f r.Entities id)).flatten) := by
  unfold Keyrings.KeysById
  simp only []
  rw [foldl_append_flatten (fun r => f r.Entities id) k.Public,
      foldl_append_flatten (fun r => f r.Entities id) k.Secret,
      List.append_assoc]

/-- Per-file lookup oracle turning each entity into one key, used to exhibit
the returned slice on a concrete keyring set. -/
def elKeysByIdW : List Entity → Nat → List OKey :=
  fun es _ => es.map (fun e => { entity := some e, publicKey := e.primaryKey
                                 privateKey := e.privateKey })

def pubFileC2 : KeyringFile :=
  { freshKeyringFile "pub" true with Entities := [entityNoPriv] }

def secFileC2 : KeyringFile :=
  { freshKeyringFile "sec" false with Entities := [entityWithPriv] }

def keyringsC2 : Keyrings := { Public := [pubFileC2], Secret := [secFileC2] }

def okeyPub : OKey :=
  { entity := some entityNoPriv, publicKey := entityNoPriv.primaryKey
    privateKey := entityNoPriv.privateKey }

def okeySec : OKey :=
  { entity := some entityWithPriv, publicKey := entityWithPriv.primaryKey
    privateKey := entityWithPriv.privateKey }

/-- C2. On a set with one public and one secret file whose per-file results
are [okeyPub] and [okeySec], KeysById returns ten zero-valued keys (from
make([]openpgp.Key, 10)) before the concatenated per-file results, so the
returned slice is not the bare concatenation the spec states. -/
theorem keysById_zeroes_bug :
    Keyrings.KeysById elKeysByIdW keyringsC2 7 =
      List.replicate 10 zeroOKey ++ [okeyPub, okeySec] ∧
    Keyrings.KeysById elKeysByIdW keyringsC2 7 ≠ [okeyPub, okeySec] := by
  constructor
  · rfl
  · intro h
    exact absurd (congrArg List.length h) (by decide)

/-- C5. For a non-empty username: a hard load error is returned and nothing is
cached (the next call will retry); a missing file is cached as the still-empty
file with no error; a cached entry is returned as-is with no second load, and
the map, being one binding per username, never holds two entries for one name. -/
theorem loadSKBKeyring_cache_policy (skbFs : String → SkbFsResult) (tmpl : String)
    (m : SkbMap) (un : String) (hun : un.length ≠ 0) :
    (skbFs (SKBFilenameForUser tmpl un) = .ioErr → m un = none →
      (Keyrings.LoadSKBKeyring skbFs tmpl m un).err = some .skbIo ∧
      (Keyrings.LoadSKBKeyring skbFs tmpl m un).map = m) ∧
    (skbFs (SKBFilenameForUser tmpl un) = .notExist → m un = none →
      (Keyrings.LoadSKBKeyring skbFs tmpl m un).err = none ∧
      (Keyrings.LoadSKBKeyring skbFs tmpl m un).map un =
        some (some (NewSKBKeyringFile (SKBFilenameForUser tmpl un))) ∧
      (NewSKBKeyringFile (SKBFilenameForUser tmpl un)).entries = []) ∧
    (∀ f, m un = some (some f) →
      Keyrings.LoadSKBKeyring skbFs tmpl m un =
        { file := some f, err := none, map := m, trace := [.mapRead un] }) := by
  refine ⟨?_, ?_, ?_⟩
  · intro hfs hm
    unfold Keyrings.LoadSKBKeyring
    simp only [hm, Option.join, Option.none_bind, hun, if_false, hfs]
    simp
  · intro hfs hm
    unfold Keyrings.LoadSKBKeyring
    simp only [hm, Option.join, Option.none_bind, hun, if_false, hfs]
    refine ⟨by simp, ?_, by simp [NewSKBKeyringFile]⟩
    simp only [Function.update_same]
  · intro f hm
    unfold Keyrings.LoadSKBKeyring
    simp only [hm, Option.join, Option.some_bind, id]

/-- A per-user filesystem oracle failing hard on the file of u1 and reporting
every other file as missing. -/
def skbFsW : String → SkbFsResult := fun p => if p = "u1.skb" then .ioErr else .notExist

def cachedFileW : SKBKeyringFile := NewSKBKeyringFile "u3.skb"

def skbMapW : SkbMap := Function.update emptySkbMap "u3" (some (some cachedFileW))

theorem loadSKBKeyring_cache_policy_witness :
    ((Keyrings.LoadSKBKeyring skbFsW "%u.skb" emptySkbMap "u1").err = some .skbIo ∧
     (Keyrings.LoadSKBKeyring skbFsW "%u.skb" emptySkbMap "u1").map = emptySkbMap) ∧
    ((Keyrings.LoadSKBKeyring skbFsW "%u.skb" emptySkbMap "u2").err = none ∧
     (Keyrings.LoadSKBKeyring skbFsW "%u.skb" emptySkbMap "u2").map "u2" =
       some (some (NewSKBKeyringFile (SKBFilenameForUser "%u.skb" "u2")))) ∧
    Keyrings.LoadSKBKeyring skbFsW "%u.skb" skbMapW "u3" =
      { file := some cachedFileW, err := none, map := skbMapW, trace := [.mapRead "u3"] } := by
  have h1 := (loadSKBKeyring_cache_policy skbFsW "%u.skb" emptySkbMap "u1"
    (by decide)).1 rfl rfl
  have h2 := (loadSKBKeyring_cache_policy skbFsW "%u.skb" emptySkbMap "u2"
    (by decide)).2.1 rfl rfl
  have h3 := (loadSKBKeyring_cache_policy skbFsW "%u.skb" skbMapW "u3"
    (by decide)).2.2 cachedFileW (by rw [skbMapW, Function.update_same])
  exact ⟨⟨h1.1, h1.2⟩, ⟨h2.1, h2.2.1⟩, h3⟩

/-- C10. Every skbMap reachable through LoadSKBKeyring calls has no binding
for the empty username and no binding holding a nil file pointer; hence the
cache-hit read LoadSKBKeyring performs for the empty username yields nil. -/
theorem skbMap_reachable_invariant (m : SkbMap) (h : ReachableSkbMap m) :
    m "" = none ∧ (∀ un, m un ≠ some none) ∧ (m "").join = none := by
  obtain ⟨h0, hn⟩ := reachableSkbMap_inv h
  exact ⟨h0, hn, by rw [h0]; rfl⟩

theorem skbMap_reachable_invariant_witness :
    emptySkbMap "" = none ∧ (∀ un, emptySkbMap un ≠ some none) ∧
    (emptySkbMap "").join = none :=
  skbMap_reachable_invariant emptySkbMap ReachableSkbMap.init

/-- C6 (amended): on any reachable cache state, LoadSKBKeyring of the empty
username fails with NoUsernameError, performs no file load, and does not write
the map; but it does first read the map at the empty username (a read that
never finds an entry, by the reachable-state invariant). -/
theorem loadSKBKeyring_empty_username (skbFs : String → SkbFsResult) (tmpl : String)
    (m : SkbMap) (h : ReachableSkbMap m) :
    Keyrings.LoadSKBKeyring skbFs tmpl m "" =
      { file := none, err := some .noUsername, map := m, trace := [.mapRead ""] } := by
  obtain ⟨h0, -⟩ := reachableSkbMap_inv h
  unfold Keyrings.LoadSKBKeyring
  simp only [h0, Option.join]
  rfl

theorem loadSKBKeyring_empty_username_witness :
    Keyrings.LoadSKBKeyring skbFsW "%u.skb" emptySkbMap "" =
      { file := none, err := some .noUsername, map := emptySkbMap, trace := [.mapRead ""] } :=
  loadSKBKeyring_empty_username skbFsW "%u.skb" emptySkbMap ReachableSkbMap.init

/-- C6 counterexample to the claim as stated: the empty-username call does
fail with NoUsernameError and loads no file, yet its event trace contains a
read of the lock-protected cache map, performed before the username check. -/
theorem loadSKBKeyring_empty_username_touches_map :
    (Keyrings.LoadSKBKeyring skbFsW "%u.skb" emptySkbMap "").err = some .noUsername ∧
    CacheEvent.mapRead "" ∈ (Keyrings.LoadSKBKeyring skbFsW "%u.skb" emptySkbMap "").trace := by
  exact ⟨rfl, by decide⟩

/-- GetLockedLocalSecretKey returns the device key as soon as the keyring and
computed key family are available, the device-key flag is on, the current
device has an active sibkey KID, and the keyring holds a key for it. -/
theorem getLockedLocal_returns_device_key (ctx : ResolverCtx) (m : SkbMap)
    (ska : SecretKeyArg) (me : User) (keyring : SKBKeyringFile)
    (ckf : ComputedKeyFamily) (kid : KID) (dk : SKB)
    (hme : ska.Me = some me)
    (h1 : (Keyrings.LoadSKBKeyring ctx.skbFs ctx.tmpl m me.name).err = none)
    (h2 : (Keyrings.LoadSKBKeyring ctx.skbFs ctx.tmpl m me.name).file = some keyring)
    (h3 : me.computedKeyFamily = some ckf)
    (h4 : ckf.activeSibkeyKidForCurrentDevice = .ok (some kid))
    (h5 : keyring.lookupByKid kid = some dk)
    (hd : ska.UseDeviceKey = true) :
    Keyrings.GetLockedLocalSecretKey ctx m ska =
      (some dk, (Keyrings.LoadSKBKeyring ctx.skbFs ctx.tmpl m me.name).map) := by
  unfold Keyrings.GetLockedLocalSecretKey
  rw [hme]
  simp only [h1, h2, h3, h4, h5, hd, Bool.not_true, Bool.false_eq_true, if_false]

/-- GetLockedLocalSecretKey finds nothing when both the device-key flag and
the local-search flag are off, whatever the keyring holds. -/
theorem getLockedLocal_no_flags (ctx : ResolverCtx) (m : SkbMap)
    (ska : SecretKeyArg) (me : User) (keyring : SKBKeyringFile) (ckf : ComputedKeyFamily)
    (hme : ska.Me = some me)
    (h1 : (Keyrings.LoadSKBKeyring ctx.skbFs ctx.tmpl m me.name).err = none)
    (h2 : (Keyrings.LoadSKBKeyring ctx.skbFs ctx.tmpl m me.name).file = some keyring)
    (h3 : me.computedKeyFamily = some ckf)
    (hd : ska.UseDeviceKey = false)
    (hs : ska.SearchForKey = false) :
    Keyrings.GetLockedLocalSecretKey ctx m ska =
      (none, (Keyrings.LoadSKBKeyring ctx.skbFs ctx.tmpl m me.name).map) := by
  unfold Keyrings.GetLockedLocalSecretKey
  rw [hme]
  simp only [h1, h2, h3, hd, hs, Bool.not_false, if_true, Bool.false_eq_true, if_false]

/-- The request of C1: useAll set, the other flags arbitrary, subject bound. -/
def skaAll (d sp sk : Bool) (r : String) (me : User) : SecretKeyArg :=
  { All := true, DeviceKey := d, SyncedPGPKey := sp, SearchKey := sk
    Reason := r, Me := some me }

/-- C1 (amended). With useAll set, a subject whose current device has an
active sibkey KID bound to a key of the per-user keyring makes
GetSecretKeyLocked return exactly that key at the device-key step, with the
provenance string left empty (only the synced-key path ever sets it), no
error, and no dependence on the subject synced key or the local-search
capability, which are quantified unconstrained here. -/
theorem getSecretKeyLocked_device_key_first (ctx : ResolverCtx) (m : SkbMap)
    (me : User) (keyring : SKBKeyringFile) (ckf : ComputedKeyFamily)
    (kid : KID) (dk : SKB) (d sp sk : Bool) (r : String)
    (h1 : (Keyrings.LoadSKBKeyring ctx.skbFs ctx.tmpl m me.name).err = none)
    (h2 : (Keyrings.LoadSKBKeyring ctx.skbFs ctx.tmpl m me.name).file = some keyring)
    (h3 : me.computedKeyFamily = some ckf)
    (h4 : ckf.activeSibkeyKidForCurrentDevice = .ok (some kid))
    (h5 : keyring.lookupByKid kid = some dk) :
    Keyrings.GetSecretKeyLocked ctx m (skaAll d sp sk r me) =
      { ret := some dk, which := "", err := none
        map := (Keyrings.LoadSKBKeyring ctx.skbFs ctx.tmpl m me.name).map } := by
  have hloc := getLockedLocal_returns_device_key ctx m (skaAll d sp sk r me) me keyring
    ckf kid dk rfl h1 h2 h3 h4 h5 (by simp [skaAll, SecretKeyArg.UseDeviceKey])
  unfold Keyrings.GetSecretKeyLocked
  simp only [skaAll] at hloc ⊢
  rw [hloc]

/-- Computed key family, keyring data, users and contexts for the resolver
witnesses: the current device KID is kid0, bound to key 11; the local search
finds 22; the synced key is 33. -/
def ckf0 : ComputedKeyFamily := { activeSibkeyKidForCurrentDevice := .ok (some "kid0") }

def skbData0 : SkbFileData :=
  { entries := [1]
    lookupByKid := fun k => if k = "kid0" then some 11 else none
    searchWithComputedKeyFamily := fun _ => some 22 }

def me0 : User :=
  { name := "alice", computedKeyFamily := some ckf0, syncedSecretKey := .ok (some 33) }

def ctx0 : ResolverCtx := { loadMe := .ok me0, skbFs := fun _ => .ok skbData0, tmpl := "%u.skb" }

/-- The keyring file the cache builds for alice under ctx0. -/
def ringAlice : SKBKeyringFile :=
  { filename := "alice.skb", entries := [1]
    lookupByKid := skbData0.lookupByKid
    searchWithComputedKeyFamily := skbData0.searchWithComputedKeyFamily }

theorem getSecretKeyLocked_device_key_first_witness :
    Keyrings.GetSecretKeyLocked ctx0 emptySkbMap (skaAll false false false "" me0) =
      { ret := some 11, which := "", err := none
        map := (Keyrings.LoadSKBKeyring ctx0.skbFs ctx0.tmpl emptySkbMap "alice").map } :=
  getSecretKeyLocked_device_key_first ctx0 emptySkbMap me0 ringAlice ckf0 "kid0" 11
    false false false "" rfl rfl rfl rfl rfl

/-- C1 counterexample to the claim as stated: a subject with a device key, a
synced key (33) and a matching local-search key (22), requested with useAll,
does resolve to the device key 11 untouched by the other sources, but the
returned provenance string is empty, not "device key". -/
theorem getSecretKeyLocked_provenance_not_device_key :
    (Keyrings.GetSecretKeyLocked ctx0 emptySkbMap (skaAll false false false "" me0)).ret =
      some 11 ∧
    me0.syncedSecretKey = .ok (some 33) ∧
    ringAlice.searchWithComputedKeyFamily ckf0 = some 22 ∧
    (Keyrings.GetSecretKeyLocked ctx0 emptySkbMap (skaAll false false false "" me0)).which ≠
      "device key" := by
  exact ⟨rfl, rfl, rfl, by decide⟩

/-- The request of C3: only the synced-key flag set, subject bound. -/
def skaSyncedOnly (r : String) (me : User) : SecretKeyArg :=
  { All := false, DeviceKey := false, SyncedPGPKey := true, SearchKey := false
    Reason := r, Me := some me }

/-- C3. With only useSyncedKey set, a subject whose device key is present but
whose synced key is absent gets NoSecretKeyError: the device key is ignored
because its flag was not requested, and the exhausted policy reports not
found. -/
theorem getSecretKeyLocked_synced_only_no_synced_key (ctx : ResolverCtx) (m : SkbMap)
    (me : User) (keyring : SKBKeyringFile) (ckf : ComputedKeyFamily)
    (kid : KID) (dk : SKB) (r : String)
    (h1 : (Keyrings.LoadSKBKeyring ctx.skbFs ctx.tmpl m me.name).err = none)
    (h2 : (Keyrings.LoadSKBKeyring ctx.skbFs ctx.tmpl m me.name).file = some keyring)
    (h3 : me.computedKeyFamily = some ckf)
    (h4 : ckf.activeSibkeyKidForCurrentDevice = .ok (some kid))
    (h5 : keyring.lookupByKid kid = some dk)
    (h6 : me.syncedSecretKey = .ok none) :
    Keyrings.GetSecretKeyLocked ctx m (skaSyncedOnly r me) =
      { ret := none, which := "", err := some .noSecretKey
        map := (Keyrings.LoadSKBKeyring ctx.skbFs ctx.tmpl m me.name).map } := by
  have hloc := getLockedLocal_no_flags ctx m (skaSyncedOnly r me) me keyring ckf
    rfl h1 h2 h3
    (by simp [skaSyncedOnly, SecretKeyArg.UseDeviceKey])
    (by simp [skaSyncedOnly, SecretKeyArg.SearchForKey])
  unfold Keyrings.GetSecretKeyLocked
  simp only [skaSyncedOnly] at hloc ⊢
  rw [hloc]
  simp only [SecretKeyArg.UseSyncedPGPKey, Bool.false_or, Bool.not_true, Bool.false_eq_true,
    if_false, h6]

/-- A subject like me0 (device key present) but with no synced key. -/
def me3 : User :=
  { name := "bob", computedKeyFamily := some ckf0, syncedSecretKey := .ok none }

def ctx3 : ResolverCtx := { loadMe := .ok me3, skbFs := fun _ => .ok skbData0, tmpl := "%u.skb" }

def ringBob : SKBKeyringFile :=
  { filename := "bob.skb", entries := [1]
    lookupByKid := skbData0.lookupByKid
    searchWithComputedKeyFamily := skbData0.searchWithComputedKeyFamily }

theorem getSecretKeyLocked_synced_only_no_synced_key_witness :
    Keyrings.GetSecretKeyLocked ctx3 emptySkbMap (skaSyncedOnly "" me3) =
      { ret := none, which := "", err := some .noSecretKey
        map := (Keyrings.LoadSKBKeyring ctx3.skbFs ctx3.tmpl emptySkbMap "bob").map } :=
  getSecretKeyLocked_synced_only_no_synced_key ctx3 emptySkbMap me3 ringBob ckf0
    "kid0" 11 "" rfl rfl rfl rfl rfl rfl

/-- Registering one entity sets its own keys to it and leaves the rest alone. -/
theorem foldl_update_lookup {κ : Type} [DecidableEq κ] (keys : List κ)
    (m : κ → Option Entity) (e : Entity) (k : κ) :
    (keys.foldl (fun m2 k2 => Function.update m2 k2 (some e)) m) k =
      if k ∈ keys then some e else m k := by
  induction keys generalizing m with
  | nil => simp
  | cons k0 ks ih =>
    simp only [List.foldl_cons, ih, List.mem_cons]
    by_cases hks : k ∈ ks
    · simp [hks]
    · by_cases hk0 : k = k0
      · subst hk0
        simp [hks, Function.update_same]
      · simp [hks, hk0, Function.update_noteq hk0]

/-- Entities none of whose keys is k leave the index unchanged at k. -/
theorem buildIndex_not_mem {κ : Type} [DecidableEq κ] (keysOf : Entity → List κ)
    (l : List Entity) (m0 : κ → Option Entity) (k : κ)
    (h : k ∉ (l.map keysOf).flatten) : buildIndex keysOf l m0 k = m0 k := by
  induction l generalizing m0 with
  | nil => rfl
  | cons a rest ih =>
    simp only [List.map_cons, List.flatten_cons, List.mem_append] at h
    push_neg at h
    unfold buildIndex at ih ⊢
    simp only [List.foldl_cons]
    rw [ih _ h.2, foldl_update_lookup, if_neg h.1]

/-- One step of the entity fold of buildIndex. -/
theorem buildIndex_cons {κ : Type} [DecidableEq κ] (keysOf : Entity → List κ)
    (a : Entity) (rest : List Entity) (m0 : κ → Option Entity) :
    buildIndex keysOf (a :: rest) m0 =
      buildIndex keysOf rest
        ((keysOf a).foldl (fun m2 k2 => Function.update m2 k2 (some a)) m0) := rfl

/-- When the keys of the file are globally distinct, the index maps each key
of each entity to that entity, exactly as last-write-wins assignment does. -/
theorem buildIndex_lookup {κ : Type} [DecidableEq κ] (keysOf : Entity → List κ)
    (l : List Entity) (m0 : κ → Option Entity) (e : Entity) (k : κ)
    (he : e ∈ l) (hk : k ∈ keysOf e) (hnd : ((l.map keysOf).flatten).Nodup) :
    buildIndex keysOf l m0 k = some e := by
  revert he hnd
  induction l generalizing m0 with
  | nil =>
    intro he _
    cases he
  | cons a rest ih =>
    intro he hnd
    simp only [List.map_cons, List.flatten_cons, List.nodup_append] at hnd
    rw [buildIndex_cons]
    rcases List.mem_cons.mp he with hea | herest
    · subst hea
      have hnotin : k ∉ (rest.map keysOf).flatten := fun hin => hnd.2.2 hk hin
      rw [buildIndex_not_mem keysOf rest _ k hnotin, foldl_update_lookup, if_pos hk]
    · exact ih _ herest hnd.2.1

/-- C8 (amended). After Index, provided no two keys in the file share an
identifier and none share a fingerprint, every subkey with non-nil public
material is indexed under its own identifier and fingerprint, both resolving
to the owning entity, and every primary key likewise resolves to its entity.
Without the distinctness proviso a later entity overwrites the binding
(see indexId_subkey_overwritten). -/
theorem index_resolves_to_parent_entity (k : KeyringFile) (e : Entity)
    (he : e ∈ k.Entities)
    (hid : ((k.Entities.map (fun e2 => e2.indexedKeys.map Prod.fst)).flatten).Nodup)
    (hfp : ((k.Entities.map (fun e2 => e2.indexedKeys.map Prod.snd)).flatten).Nodup) :
    (∀ sk pk, sk ∈ e.subkeys → sk.publicKey = some pk →
      k.Index.indexId pk.keyIdString = some e ∧
      k.Index.indexFingerprint pk.fingerprint = some e) ∧
    (∀ pk, e.primaryKey = some pk →
      k.Index.indexId pk.keyIdString = some e ∧
      k.Index.indexFingerprint pk.fingerprint = some e) := by
  have hpair : ∀ pk : PublicKeyPacket, (pk.keyIdString, pk.fingerprint) ∈ e.indexedKeys →
      k.Index.indexId pk.keyIdString = some e ∧
      k.Index.indexFingerprint pk.fingerprint = some e := by
    intro pk hmem
    constructor
    · exact buildIndex_lookup _ k.Entities _ e pk.keyIdString he
        (List.mem_map.mpr ⟨(pk.keyIdString, pk.fingerprint), hmem, rfl⟩) hid
    · exact buildIndex_lookup _ k.Entities _ e pk.fingerprint he
        (List.mem_map.mpr ⟨(pk.keyIdString, pk.fingerprint), hmem, rfl⟩) hfp
  constructor
  · intro sk pk hsk hpk
    refine hpair pk ?_
    unfold Entity.indexedKeys
    refine List.mem_append.mpr (Or.inr ?_)
    exact List.mem_filterMap.mpr ⟨sk, hsk, by rw [hpk]; rfl⟩
  · intro pk hpk
    refine hpair pk ?_
    unfold Entity.indexedKeys
    refine List.mem_append.mpr (Or.inl ?_)
    rw [hpk]
    exact List.mem_singleton.mpr rfl

/-- An entity with one primary key and one subkey, all four keys distinct. -/
def entityC8 : Entity :=
  { primaryKey := some { keyIdString := "P", fingerprint := "FP" }
    subkeys := [{ publicKey := some { keyIdString := "S", fingerprint := "FS" } }]
    privateKey := none }

def fileC8 : KeyringFile := { freshKeyringFile "kr" true with Entities := [entityC8] }

theorem index_resolves_to_parent_entity_witness :
    fileC8.Index.indexId "S" = some entityC8 ∧
    fileC8.Index.indexFingerprint "FS" = some entityC8 ∧
    fileC8.Index.indexId "P" = some entityC8 ∧
    fileC8.Index.indexFingerprint "FP" = some entityC8 := by
  have h := index_resolves_to_parent_entity fileC8 entityC8
    (List.mem_singleton.mpr rfl) (by decide) (by decide)
  have hsub := h.1 { publicKey := some { keyIdString := "S", fingerprint := "FS" } }
    { keyIdString := "S", fingerprint := "FS" } (List.mem_singleton.mpr rfl) rfl
  have hpri := h.2 { keyIdString := "P", fingerprint := "FP" } rfl
  exact ⟨hsub.1, hsub.2, hpri.1, hpri.2⟩

/-- Two entities sharing the identifier and fingerprint X/FX: the first holds
them on a subkey with non-nil public material, the second on its primary key. -/
def entityC8a : Entity :=
  { primaryKey := none
    subkeys := [{ publicKey := some { keyIdString := "X", fingerprint := "FX" } }]
    privateKey := none }

def entityC8b : Entity :=
  { primaryKey := some { keyIdString := "X", fingerprint := "FX" }
    subkeys := [], privateKey := none }

def fileC8bad : KeyringFile :=
  { freshKeyringFile "kr2" true with Entities := [entityC8a, entityC8b] }

/-- C8 counterexample to the claim as stated: in fileC8bad the subkey X of
entityC8a has non-nil public material, yet after Index both indexes resolve X
and FX to entityC8b, the later entity that reuses them, not to the owning
entity entityC8a. -/
theorem indexId_subkey_overwritten :
    entityC8a.subkeys =
      [{ publicKey := some { keyIdString := "X", fingerprint := "FX" } }] ∧
    fileC8bad.Index.indexId "X" = some entityC8b ∧
    fileC8bad.Index.indexFingerprint "FX" = some entityC8b ∧
    entityC8b ≠ entityC8a := by
  refine ⟨rfl, rfl, rfl, by decide⟩

end Libkb
